import Mathlib

/-!
Shallow embedding of the expense-report application (server core).

Sources embedded here:
- `src/server/storage.ts` (`MemStorage`, the in-memory `IStorage` implementation)
  together with the shared schema types appended to that file;
- `src/server/routes.ts` (the POST /api/expenses, PATCH /api/expenses/:id/status,
  GET /api/mileage-rate handlers);
- `src/server/services/notifications.ts` (`NotificationService`);
- `src/unnamed/part_004` (`SheetsService`).

Modelling conventions:
- JS `number` ids and timestamps become `Nat` (dates are epoch-millisecond
  timestamps; only ordering and equality of dates matter to the code).
- Monetary amounts are exact rationals `ℚ`.  The source stores amounts as
  2-decimal strings and converts with `parseFloat`/`toFixed(2)`; the rational
  model is the exact-decimal idealization of that arithmetic.
- A JS `Map` keyed by id becomes a `List` in insertion order; `Map.set` on an
  existing key is an in-place replacement, modelled as a `List.map` that
  replaces the entries carrying that id.
- `Array.prototype.sort`, which is stable, is modelled by the stable
  `List.insertionSort`.
- `async` calls that can throw are modelled by explicit result values;
  a `try/catch` block becomes a `match` that discards the failure.
- External effects (the Google-Sheets ledger, outgoing e-mail) are recorded in
  an explicit `World` alongside the storage state, and the outcome of each
  external call is prescribed by a `SinkEnv` oracle.
-/

namespace ExpenseApp

/-- `expenses.status` text column, documented in the schema as
`pending, approved, rejected`. -/
inductive Status
  | pending
  | approved
  | rejected
deriving DecidableEq, Repr

/-- `users.role` text column, documented as `employee, approver, admin`. -/
inductive Role
  | employee
  | approver
  | admin
deriving DecidableEq, Repr

/-- The verdicts admitted by `updateExpenseStatusSchema`
(`z.enum(["approved", "rejected"])`). -/
inductive Verdict
  | approved
  | rejected
deriving DecidableEq, Repr

def Verdict.toStatus : Verdict → Status
  | .approved => .approved
  | .rejected => .rejected

/-- Row of the `users` table (`createdAt` omitted: never read by the embedded code). -/
structure User where
  id : Nat
  email : String
  name : String
  department : Option String
  role : Role
  isActive : Bool
deriving DecidableEq, Repr

/-- Row of the `expenses` table. -/
structure Expense where
  id : Nat
  employeeId : Nat
  employeeName : String
  employeeEmail : String
  department : Option String
  amount : ℚ
  description : String
  category : String
  expenseDate : Nat
  submissionDate : Nat
  status : Status
  approvedBy : Option Nat
  approvedByName : Option String
  approvalDate : Option Nat
  approvalNote : Option String
  receiptUrl : Option String
  receiptFileName : Option String
  emailId : Option String
  formSubmissionId : Option String
  sheetsRowNumber : Option Nat
  notificationSent : Bool
deriving DecidableEq, Repr

/-- Row of the `system_settings` table. -/
structure SystemSetting where
  id : Nat
  key : String
  value : String
  updatedAt : Nat
deriving DecidableEq, Repr

/-- Payload accepted by `insertExpenseSchema` (id, submissionDate, decision
fields and notificationSent are omitted by the schema). -/
structure InsertExpense where
  employeeId : Nat
  employeeName : String
  employeeEmail : String
  department : Option String
  amount : ℚ
  description : String
  category : String
  expenseDate : Nat
  receiptUrl : Option String
  receiptFileName : Option String
  emailId : Option String
  formSubmissionId : Option String
  sheetsRowNumber : Option Nat
deriving DecidableEq, Repr

/-- Payload accepted by `updateExpenseStatusSchema`. -/
structure UpdateExpenseStatusData where
  status : Verdict
  approvalNote : Option String
  approvedBy : Nat
  approvedByName : String
deriving DecidableEq, Repr

/-- JS `s || null` on a nullable string: the empty string is falsy and
collapses to `null`. -/
def strOrNone : Option String → Option String
  | some "" => none
  | x => x

/-- JS `n || null` on a nullable number: `0` is falsy and collapses to `null`. -/
def natOrNone : Option Nat → Option Nat
  | some 0 => none
  | x => x

/-- State of `MemStorage` (storage.ts lines 45-63): three id-keyed maps in
insertion order plus the three id counters. -/
structure MemStorage where
  users : List User
  expenses : List Expense
  settings : List SystemSetting
  currentUserId : Nat
  currentExpenseId : Nat
  currentSettingId : Nat
deriving DecidableEq, Repr

/-- `MemStorage.getUser`: `this.users.get(id)`. -/
def MemStorage.getUser (s : MemStorage) (id : Nat) : Option User :=
  s.users.find? (fun u => u.id == id)

/-- `this.expenses.get(id)` (used by `getExpense` and internally by the update
operations). -/
def MemStorage.getExpense (s : MemStorage) (id : Nat) : Option Expense :=
  s.expenses.find? (fun e => e.id == id)

/-- `MemStorage.getSetting`: `this.settings.get(key)`. -/
def MemStorage.getSetting (s : MemStorage) (key : String) : Option SystemSetting :=
  s.settings.find? (fun st => st.key == key)

/-- Comparator of storage.ts lines 189-191: `(a, b) => b.submissionDate - a.submissionDate`,
i.e. `a` precedes `b` when `b.submissionDate ≤ a.submissionDate` (descending). -/
def subDateGe (a b : Expense) : Prop :=
  b.submissionDate ≤ a.submissionDate

instance : DecidableRel subDateGe := fun a b =>
  decidable_of_iff (b.submissionDate ≤ a.submissionDate) Iff.rfl

instance : IsTotal Expense subDateGe :=
  ⟨fun a b => le_total b.submissionDate a.submissionDate⟩

instance : IsTrans Expense subDateGe :=
  ⟨fun _ _ _ h1 h2 => le_trans h2 h1⟩

/-- `MemStorage.getAllExpenses`: all values sorted by submissionDate descending
(stable sort). -/
def MemStorage.getAllExpenses (s : MemStorage) : List Expense :=
  s.expenses.insertionSort subDateGe

/-- `MemStorage.getExpensesByStatus`: filter by status, then the same stable
descending sort. -/
def MemStorage.getExpensesByStatus (s : MemStorage) (status : Status) : List Expense :=
  (s.expenses.filter (fun e => e.status == status)).insertionSort subDateGe

/-- `MemStorage.createExpense` (storage.ts lines 206-233): assigns the next id,
stamps `submissionDate` with the server clock (`new Date()`, the `now`
argument), initializes the lifecycle fields, and inserts the record. -/
def MemStorage.createExpense (now : Nat) (s : MemStorage) (ins : InsertExpense) :
    Expense × MemStorage :=
  let id := s.currentExpenseId
  let e : Expense :=
    { id := id
      employeeId := ins.employeeId
      employeeName := ins.employeeName
      employeeEmail := ins.employeeEmail
      department := strOrNone ins.department
      amount := ins.amount
      description := ins.description
      category := ins.category
      expenseDate := ins.expenseDate
      submissionDate := now
      status := .pending
      approvedBy := none
      approvedByName := none
      approvalDate := none
      approvalNote := none
      receiptUrl := strOrNone ins.receiptUrl
      receiptFileName := strOrNone ins.receiptFileName
      emailId := strOrNone ins.emailId
      formSubmissionId := strOrNone ins.formSubmissionId
      sheetsRowNumber := natOrNone ins.sheetsRowNumber
      notificationSent := false }
  (e, { s with expenses := s.expenses ++ [e], currentExpenseId := id + 1 })

/-- `this.expenses.set(id, e')`: in-place replacement of the map entry keyed
`id` (insertion order preserved). -/
def MemStorage.setExpense (s : MemStorage) (id : Nat) (e' : Expense) : MemStorage :=
  { s with expenses := s.expenses.map (fun x => if x.id == id then e' else x) }

/-- The `updatedExpense` record written by `MemStorage.updateExpenseStatus`
(storage.ts lines 239-247): overwrite the decision fields, stamp
`approvalDate` with the server clock, reset `notificationSent`. -/
def decidedOf (now : Nat) (updates : UpdateExpenseStatusData) (expense : Expense) : Expense :=
  { expense with
    status := updates.status.toStatus
    approvalNote := strOrNone updates.approvalNote
    approvedBy := some updates.approvedBy
    approvedByName := some updates.approvedByName
    approvalDate := some now
    notificationSent := false }

/-- `MemStorage.updateExpenseStatus` (storage.ts lines 235-251): looks the
record up by id — with no check of its current status — and stores
`decidedOf` of it. -/
def MemStorage.updateExpenseStatus (now : Nat) (s : MemStorage) (id : Nat)
    (updates : UpdateExpenseStatusData) : Option Expense × MemStorage :=
  match s.getExpense id with
  | none => (none, s)
  | some expense =>
    let updatedExpense := decidedOf now updates expense
    (some updatedExpense, s.setExpense id updatedExpense)

/-- `MemStorage.updateExpense` (storage.ts lines 253-260): partial update — the
caller's field patch `{ ...expense, ...updates }` is modelled by the merge
function `f` applied to the stored record. -/
def MemStorage.updateExpense (s : MemStorage) (id : Nat) (f : Expense → Expense) :
    Option Expense × MemStorage :=
  match s.getExpense id with
  | none => (none, s)
  | some expense =>
    let updatedExpense := f expense
    (some updatedExpense, s.setExpense id updatedExpense)

/-- Result record of `MemStorage.getExpenseStats`. -/
structure ExpenseStats where
  pendingCount : Nat
  approvedCount : Nat
  rejectedCount : Nat
  totalAmount : ℚ
deriving DecidableEq, Repr

/-- `MemStorage.getExpenseStats` (storage.ts lines 288-304). -/
def MemStorage.getExpenseStats (s : MemStorage) : ExpenseStats :=
  let allExpenses := s.expenses
  { pendingCount := (allExpenses.filter (fun e => e.status == .pending)).length
    approvedCount := (allExpenses.filter (fun e => e.status == .approved)).length
    rejectedCount := (allExpenses.filter (fun e => e.status == .rejected)).length
    totalAmount :=
      (allExpenses.filter (fun e => e.status == .approved)).foldl
        (fun sum e => sum + e.amount) 0 }

/-- A row of the external spreadsheet ledger as appended / updated by
`SheetsService`.  The 15 physical columns are abbreviated to the fields the
service actually reads back or rewrites; `row` is the sheet row index reported
by the append response. -/
structure LedgerRow where
  row : Nat
  expenseId : Nat
  status : Status
  approvedByName : Option String
  approvalDate : Option Nat
  approvalNote : Option String
deriving DecidableEq, Repr

/-- Kind of an outgoing notification e-mail (the subject/body template text is
not semantically modelled). -/
inductive MsgKind
  | submissionNotice
  | decisionNotice (status : Status)
deriving DecidableEq, Repr

/-- An e-mail handed to `gmailService.sendNotificationEmail`. -/
structure EmailMsg where
  recipient : String
  kind : MsgKind
deriving DecidableEq, Repr

/-- Trace marker appended when a sink service method is entered (regardless of
whether the underlying external call then succeeds). -/
inductive SinkCall
  | ledgerAppendFor (expenseId : Nat)
  | ledgerUpdateFor (expenseId : Nat)
  | notifyApprovers (expenseId : Nat)
  | notifyEmployee (expenseId : Nat)
deriving DecidableEq, Repr

/-- The full observable state: the storage plus the external world (ledger
rows, sent mail, and the trace of sink invocations). -/
structure World where
  store : MemStorage
  ledger : List LedgerRow
  sent : List EmailMsg
  calls : List SinkCall
deriving DecidableEq, Repr

/-- Oracle prescribing the outcome of each external call.
`ledgerAppendResult k` is the outcome of the append performed when the ledger
already holds `k` rows: `none` means the Sheets API throws, `some r` means the
append succeeds and the response's updated-range regex yields row number `r`
(the source falls back to `0` when the regex fails to match, hence `r = 0` is
representable).  `ledgerUpdateOk` / `notifierOk` say whether a row update /
an e-mail send succeeds. -/
structure SinkEnv where
  ledgerAppendResult : Nat → Option Nat
  ledgerUpdateOk : Bool
  notifierOk : Bool

/-- `SheetsService.addExpense` (part_004 lines 69-113): appends the expense
row; on success, if the reported row number is positive, stores it back on the
expense via `storage.updateExpense`.  Returns `none` in the second component
when the underlying API call throws (the method re-throws). -/
def SheetsService.addExpense (env : SinkEnv) (w : World) (e : Expense) :
    World × Option Nat :=
  let w0 := { w with calls := w.calls ++ [.ledgerAppendFor e.id] }
  match env.ledgerAppendResult w.ledger.length with
  | none => (w0, none)
  | some rowNumber =>
    let w1 := { w0 with
      ledger := w0.ledger ++
        [{ row := rowNumber, expenseId := e.id, status := e.status,
           approvedByName := e.approvedByName, approvalDate := e.approvalDate,
           approvalNote := e.approvalNote }] }
    if 0 < rowNumber then
      ({ w1 with
          store := (w1.store.updateExpense e.id
            (fun x => { x with sheetsRowNumber := some rowNumber })).2 },
        some rowNumber)
    else
      (w1, some rowNumber)

/-- `SheetsService.updateExpenseStatus` (part_004 lines 115-145): when the
expense carries no sheet row number it only warns and returns; otherwise it
rewrites columns J-M of that row.  The `Bool` is `true` when the call throws
(the method re-throws API failures). -/
def SheetsService.updateExpenseStatus (env : SinkEnv) (w : World) (e : Expense) :
    World × Bool :=
  let w0 := { w with calls := w.calls ++ [.ledgerUpdateFor e.id] }
  match e.sheetsRowNumber with
  | none => (w0, false)
  | some rowNumber =>
    if env.ledgerUpdateOk then
      ({ w0 with
          ledger := w0.ledger.map (fun r =>
            if r.row == rowNumber then
              { r with
                status := e.status
                approvedByName := e.approvedByName
                approvalDate := e.approvalDate
                approvalNote := e.approvalNote }
            else r) },
        false)
    else
      (w0, true)

/-- `SheetsService.syncExpensesToSheet` loop body (part_004 lines 147-160):
walks the snapshot list fetched once at the start; every expense without a
sheet row number is re-appended via `addExpense`; a throw aborts the loop and
propagates (the method re-throws).  The `Bool` is `true` when it threw. -/
def SheetsService.syncLoop (env : SinkEnv) : World → List Expense → World × Bool
  | w, [] => (w, false)
  | w, e :: rest =>
    match e.sheetsRowNumber with
    | some _ => SheetsService.syncLoop env w rest
    | none =>
      match SheetsService.addExpense env w e with
      | (w', none) => (w', true)
      | (w', some _) => SheetsService.syncLoop env w' rest

/-- `SheetsService.syncExpensesToSheet` (part_004 lines 147-160). -/
def SheetsService.syncExpensesToSheet (env : SinkEnv) (w : World) : World × Bool :=
  SheetsService.syncLoop env w w.store.getAllExpenses

/-- `NotificationService.getApprovers` (notifications.ts lines 45-52): the
hard-coded default approver list, as (email, name) pairs. -/
def NotificationService.getApprovers : List (String × String) :=
  [("manager@agency.com", "Finance Manager"), ("admin@agency.com", "Admin User")]

/-- `NotificationService.sendExpenseSubmissionNotification` (notifications.ts
lines 6-27): e-mails every approver; any error is caught and logged inside the
method, so it never throws, and it performs no storage write. -/
def NotificationService.sendExpenseSubmissionNotification (env : SinkEnv)
    (w : World) (e : Expense) : World :=
  let w0 := { w with calls := w.calls ++ [.notifyApprovers e.id] }
  if env.notifierOk then
    { w0 with
      sent := w0.sent ++ NotificationService.getApprovers.map
        (fun a => ({ recipient := a.1, kind := .submissionNotice } : EmailMsg)) }
  else
    w0

/-- `NotificationService.sendApprovalNotification` (notifications.ts lines
29-43): e-mails the submitter and, only once that send has returned without
error, marks `notificationSent := true` via `storage.updateExpense`; any error
is caught inside the method (so the flag write is skipped and nothing
propagates). -/
def NotificationService.sendApprovalNotification (env : SinkEnv)
    (w : World) (e : Expense) : World :=
  let w0 := { w with calls := w.calls ++ [.notifyEmployee e.id] }
  if env.notifierOk then
    let w1 := { w0 with
      sent := w0.sent ++
        [({ recipient := e.employeeEmail, kind := .decisionNotice e.status } : EmailMsg)] }
    { w1 with
      store := (w1.store.updateExpense e.id
        (fun x => { x with notificationSent := true })).2 }
  else
    w0

/-- JS `Number.prototype.toFixed(2)` on a positive value: round to the nearest
multiple of 0.01, ties upward. -/
def roundHalfUpTo2 (q : ℚ) : ℚ :=
  ((⌊q * 100 + 1 / 2⌋ : ℤ) : ℚ) / 100

/-- Mileage branch of POST /api/expenses (routes.ts lines 181-187):
`(distance * rate).toFixed(2)`. -/
def calculateAmount (distance rate : ℚ) : ℚ :=
  roundHalfUpTo2 (distance * rate)

/-- Decimal parsing of a `SystemSetting.value` string (the `parseFloat` call of
GET /api/mileage-rate), defined on non-negative plain decimal literals;
`none` models a NaN result. -/
def parseDecimal (s : String) : Option ℚ :=
  match s.splitOn "." with
  | [w] => w.toNat?.map (fun n => (n : ℚ))
  | [w, f] =>
    match w.toNat?, f.toNat? with
    | some n, some m => some ((n : ℚ) + (m : ℚ) / (10 : ℚ) ^ f.length)
    | _, _ => none
  | _ => none

/-- GET /api/mileage-rate (routes.ts lines 294-304): reads the
`"mileage_rate"` setting at call time, parsing its value, and falls back to
the documented default `0.68` when the setting is unset.  `none` models an
unparseable stored value (`parseFloat` NaN). -/
def Routes.getMileageRate (s : MemStorage) : Option ℚ :=
  match s.getSetting "mileage_rate" with
  | some rateSetting => parseDecimal rateSetting.value
  | none => some (68 / 100)

/-- Request body of POST /api/expenses as seen after JSON parsing.  A mileage
submission carries both `mileageDistance` and `mileageRate` (the route guards
on the truthiness of both fields). -/
structure SubmitBody where
  amount : ℚ
  mileageDistance : Option ℚ
  mileageRate : Option ℚ
  description : String
  category : String
  expenseDate : Nat
  receiptUrl : Option String
  receiptFileName : Option String
deriving DecidableEq, Repr

/-- Outcome of POST /api/expenses (validation failures and the receipt-upload
branch, which no claim touches, are not modelled). -/
inductive PostResp
  | created (e : Expense)
  | notFoundUser
deriving DecidableEq, Repr

/-- Replace the storage inside a world (the other components are untouched). -/
def World.withStore (w : World) (s : MemStorage) : World :=
  { w with store := s }

/-- The `insertExpenseSchema.parse({...})` payload assembled by
POST /api/expenses (routes.ts lines 181-207): the amount is the caller's
`amount` field, except that a mileage submission (both `mileageDistance` and
`mileageRate` present in the request body) replaces it with
`(distance * rate).toFixed(2)` — the rate used is the one **supplied by the
caller**, not a server-side setting. -/
def Routes.submitInsert (user : User) (body : SubmitBody) : InsertExpense :=
  { employeeId := user.id
    employeeName := user.name
    employeeEmail := user.email
    department := user.department
    amount :=
      match body.mileageDistance, body.mileageRate with
      | some distance, some rate => calculateAmount distance rate
      | _, _ => body.amount
    description := body.description
    category := body.category
    expenseDate := body.expenseDate
    receiptUrl := some (body.receiptUrl.getD "")
    receiptFileName := body.receiptFileName
    emailId := none
    formSubmissionId := none
    sheetsRowNumber := none }

/-- POST /api/expenses (routes.ts lines 174-233): resolves the session user,
builds the insert payload (`submitInsert`), creates the expense, then fans
out to the sheets sink and the approver notification, each inside its own
try/catch so that neither failure reaches the response. -/
def Routes.postExpense (env : SinkEnv) (now : Nat) (w : World) (callerId : Nat)
    (body : SubmitBody) : PostResp × World :=
  match w.store.getUser callerId with
  | none => (.notFoundUser, w)
  | some user =>
    let created := MemStorage.createExpense now w.store (Routes.submitInsert user body)
    let expense := created.1
    let w1 := w.withStore created.2
    let w2 := (SheetsService.addExpense env w1 expense).1
    let w3 := NotificationService.sendExpenseSubmissionNotification env w2 expense
    (.created expense, w3)

/-- Request body of PATCH /api/expenses/:id/status (the route injects
`approvedBy`/`approvedByName` from the session user before schema parsing). -/
structure DecideBody where
  status : Verdict
  approvalNote : Option String
deriving DecidableEq, Repr

/-- Outcome of PATCH /api/expenses/:id/status. `forbidden` is the 403
insufficient-permissions response, `notFound` the 404. -/
inductive PatchResp
  | ok (e : Expense)
  | forbidden
  | notFound
deriving DecidableEq, Repr

/-- PATCH /api/expenses/:id/status (routes.ts lines 235-278): resolves the
session user, rejects with 403 unless the role is approver or admin, updates
the stored record (no check of its current status), then fans out to the
sheets row update and the submitter notification, each failure-isolated. -/
def Routes.patchExpenseStatus (env : SinkEnv) (now : Nat) (w : World)
    (callerId : Nat) (id : Nat) (body : DecideBody) : PatchResp × World :=
  match w.store.getUser callerId with
  | none => (.forbidden, w)
  | some user =>
    if user.role ≠ .approver ∧ user.role ≠ .admin then
      (.forbidden, w)
    else
      let updateData : UpdateExpenseStatusData :=
        { status := body.status
          approvalNote := body.approvalNote
          approvedBy := user.id
          approvedByName := user.name }
      match MemStorage.updateExpenseStatus now w.store id updateData with
      | (none, _) => (.notFound, w)
      | (some expense, store1) =>
        let w1 : World := { w with store := store1 }
        let w2 := (SheetsService.updateExpenseStatus env w1 expense).1
        let w3 := NotificationService.sendApprovalNotification env w2 expense
        (.ok expense, w3)

/-! ### Concrete fixtures (used by witnesses and counterexamples)

Modelled after the sample data seeded by `initializeDefaultData`
(storage.ts lines 65-150): an admin, an approver, an employee, and a sample
expense.  Amounts are kept integral so that record equalities evaluate by
kernel reduction. -/

def adminUser : User :=
  { id := 1, email := "admin@agency.com", name := "Admin User",
    department := some "Administration", role := .admin, isActive := true }

def approverUser : User :=
  { id := 2, email := "manager@agency.com", name := "Finance Manager",
    department := some "Finance", role := .approver, isActive := true }

def employeeUser : User :=
  { id := 3, email := "sarah@agency.com", name := "Sarah Miller",
    department := some "Marketing", role := .employee, isActive := true }

/-- A stored expense that has already been approved. -/
def approvedExpense : Expense :=
  { id := 1, employeeId := 3, employeeName := "Sarah Miller",
    employeeEmail := "sarah@agency.com", department := some "Marketing",
    amount := 156, description := "Team lunch at The Bistro",
    category := "Meals & Entertainment", expenseDate := 10, submissionDate := 20,
    status := .approved, approvedBy := some 2,
    approvedByName := some "Finance Manager", approvalDate := some 30,
    approvalNote := none, receiptUrl := none, receiptFileName := none,
    emailId := none, formSubmissionId := none, sheetsRowNumber := none,
    notificationSent := false }

/-- A stored expense still awaiting a decision. -/
def pendingExpense : Expense :=
  { id := 2, employeeId := 3, employeeName := "Sarah Miller",
    employeeEmail := "sarah@agency.com", department := some "Marketing",
    amount := 89, description := "Uber to client meeting",
    category := "Transportation", expenseDate := 11, submissionDate := 21,
    status := .pending, approvedBy := none, approvedByName := none,
    approvalDate := none, approvalNote := none, receiptUrl := none,
    receiptFileName := none, emailId := none, formSubmissionId := none,
    sheetsRowNumber := none, notificationSent := false }

def demoStore : MemStorage :=
  { users := [adminUser, approverUser, employeeUser],
    expenses := [approvedExpense, pendingExpense], settings := [],
    currentUserId := 4, currentExpenseId := 3, currentSettingId := 1 }

def demoWorld : World :=
  { store := demoStore, ledger := [], sent := [], calls := [] }

def demoInsert : InsertExpense :=
  { employeeId := 3, employeeName := "Sarah Miller",
    employeeEmail := "sarah@agency.com", department := some "Marketing",
    amount := 299, description := "Software license for design tools",
    category := "Software", expenseDate := 12, receiptUrl := none,
    receiptFileName := none, emailId := none, formSubmissionId := none,
    sheetsRowNumber := none }

/-- A plain (non-mileage) submission body. -/
def demoSubmit : SubmitBody :=
  { amount := 42, mileageDistance := none, mileageRate := none,
    description := "Taxi", category := "Transportation", expenseDate := 15,
    receiptUrl := none, receiptFileName := none }

/-- A mileage submission whose caller-supplied rate (2) differs from any
configured server-side rate. -/
def mileageSubmit : SubmitBody :=
  { amount := 0, mileageDistance := some 10, mileageRate := some 2,
    description := "Client site drive", category := "Mileage", expenseDate := 16,
    receiptUrl := none, receiptFileName := none }

def mileageSetting : SystemSetting :=
  { id := 1, key := "mileage_rate", value := "0.70", updatedAt := 0 }

/-- The demo store with a configured `mileage_rate` setting. -/
def settingStore : MemStorage :=
  { demoStore with settings := [mileageSetting] }

/-- The storage state with no data at all. -/
def emptyStore : MemStorage :=
  { users := [], expenses := [], settings := [],
    currentUserId := 1, currentExpenseId := 1, currentSettingId := 1 }

/-- Environment in which every external sink call fails. -/
def failingEnv : SinkEnv :=
  { ledgerAppendResult := fun _ => none, ledgerUpdateOk := false, notifierOk := false }

/-- Environment in which every external sink call succeeds; appends report
sheet row `k + 2` for the `k`-th ledger row (row 1 is the header). -/
def healthyEnv : SinkEnv :=
  { ledgerAppendResult := fun k => some (k + 2), ledgerUpdateOk := true, notifierOk := true }

/-! ### Helper lemmas about the storage primitives -/

lemma getExpense_id {s : MemStorage} {id : Nat} {e : Expense}
    (h : s.getExpense id = some e) : e.id = id := by
  have := List.find?_some h
  simpa using this

lemma getExpense_eq_none {s : MemStorage} {id : Nat}
    (h : s.getExpense id = none) : ∀ x ∈ s.expenses, x.id ≠ id := by
  intro x hx
  have := List.find?_eq_none.1 h x hx
  simpa using this

lemma find?_map_update (id : Nat) (e' : Expense) (h : e'.id = id) :
    ∀ l : List Expense,
      (l.map (fun x => if x.id == id then e' else x)).find? (fun x => x.id == id) =
        (l.find? (fun x => x.id == id)).map (fun _ => e')
  | [] => rfl
  | x :: l => by
    rw [List.map_cons]
    by_cases hx : x.id = id
    · rw [List.find?_cons_of_pos _ (by simp [hx, h]),
        List.find?_cons_of_pos _ (by simp [hx])]
      simp [hx]
    · rw [List.find?_cons_of_neg _ (by simp [hx]),
        List.find?_cons_of_neg _ (by simp [hx]), find?_map_update id e' h l]

lemma getExpense_setExpense {s : MemStorage} {id : Nat} {e' : Expense} (h : e'.id = id) :
    ((s.setExpense id e').getExpense id) = (s.getExpense id).map (fun _ => e') := by
  show (s.expenses.map (fun x => if x.id == id then e' else x)).find?
      (fun x => x.id == id) = (s.expenses.find? (fun x => x.id == id)).map (fun _ => e')
  rw [find?_map_update id e' h]

lemma mem_map_update_of_ne {l : List Expense} {id : Nat} {e' : Expense} {x : Expense}
    (hx : x ∈ l.map (fun y => if y.id == id then e' else y)) (hne : x.id ≠ id)
    (hid : e'.id = id) : x ∈ l := by
  rcases List.mem_map.1 hx with ⟨y, hy, hxy⟩
  by_cases h : y.id = id
  · exfalso
    apply hne
    rw [← hxy]
    simp [h, hid]
  · rw [← hxy]
    simpa [h] using hy

lemma setExpense_mem_of_ne {s : MemStorage} {id : Nat} {e' : Expense} {x : Expense}
    (hx : x ∈ (s.setExpense id e').expenses) (hne : x.id ≠ id) (hid : e'.id = id) :
    x ∈ s.expenses :=
  mem_map_update_of_ne hx hne hid

lemma updateExpense_getExpense {s : MemStorage} {id : Nat} {f : Expense → Expense}
    (hf : ∀ e, (f e).id = e.id) :
    ((s.updateExpense id f).2).getExpense id = (s.getExpense id).map f := by
  rcases he : s.getExpense id with _ | e0
  · simp [MemStorage.updateExpense, he]
  · have hid : (f e0).id = id := by rw [hf]; exact getExpense_id he
    simp only [MemStorage.updateExpense, he]
    rw [getExpense_setExpense hid, he]
    rfl

lemma updateExpense_mem_of_ne {s : MemStorage} {id : Nat} {f : Expense → Expense}
    (hf : ∀ e, (f e).id = e.id) {x : Expense}
    (hx : x ∈ ((s.updateExpense id f).2).expenses) (hne : x.id ≠ id) : x ∈ s.expenses := by
  rcases he : s.getExpense id with _ | e0
  · simpa [MemStorage.updateExpense, he] using hx
  · have hid : (f e0).id = id := by rw [hf]; exact getExpense_id he
    simp only [MemStorage.updateExpense, he] at hx
    exact setExpense_mem_of_ne hx hne hid

/-! ### C3 — freshly created expenses -/

/-- C3: every expense built by `createExpense` starts with status `pending`,
`notificationSent = false`, all four decision fields null, the server-assigned
`submissionDate`, and an id different from every already-stored expense
(assuming the storage invariant that stored ids are below the id counter,
which creation itself preserves). -/
theorem createExpense_initial_state (now : Nat) (s : MemStorage) (ins : InsertExpense)
    (hids : ∀ x ∈ s.expenses, x.id < s.currentExpenseId) :
    (MemStorage.createExpense now s ins).1.status = .pending ∧
    (MemStorage.createExpense now s ins).1.notificationSent = false ∧
    (MemStorage.createExpense now s ins).1.approvedBy = none ∧
    (MemStorage.createExpense now s ins).1.approvedByName = none ∧
    (MemStorage.createExpense now s ins).1.approvalDate = none ∧
    (MemStorage.createExpense now s ins).1.approvalNote = none ∧
    (MemStorage.createExpense now s ins).1.submissionDate = now ∧
    (∀ x ∈ s.expenses, x.id ≠ (MemStorage.createExpense now s ins).1.id) ∧
    (∀ x ∈ (MemStorage.createExpense now s ins).2.expenses,
      x.id < (MemStorage.createExpense now s ins).2.currentExpenseId) := by
  have hid1 : (MemStorage.createExpense now s ins).1.id = s.currentExpenseId := rfl
  have hid2 : (MemStorage.createExpense now s ins).2.currentExpenseId =
      s.currentExpenseId + 1 := rfl
  have hexp : (MemStorage.createExpense now s ins).2.expenses =
      s.expenses ++ [(MemStorage.createExpense now s ins).1] := rfl
  refine ⟨rfl, rfl, rfl, rfl, rfl, rfl, rfl, ?_, ?_⟩
  · intro x hx
    have := hids x hx
    rw [hid1]
    omega
  · intro x hx
    rw [hexp] at hx
    rw [hid2]
    rcases List.mem_append.1 hx with h | h
    · have := hids x h
      omega
    · simp only [List.mem_singleton] at h
      subst h
      rw [hid1]
      omega

/-- Witness for C3 at a concrete storage state. -/
theorem createExpense_initial_state_witness :
    (MemStorage.createExpense 50 demoStore demoInsert).1.status = .pending ∧
    (∀ x ∈ demoStore.expenses, x.id ≠ (MemStorage.createExpense 50 demoStore demoInsert).1.id) :=
  ⟨(createExpense_initial_state 50 demoStore demoInsert (by decide)).1,
   (createExpense_initial_state 50 demoStore demoInsert (by decide)).2.2.2.2.2.2.2.1⟩

/-! ### C7 — the stats partition -/

lemma filter_status_length_partition : ∀ l : List Expense,
    (l.filter (fun e => e.status == Status.pending)).length +
      (l.filter (fun e => e.status == Status.approved)).length +
      (l.filter (fun e => e.status == Status.rejected)).length = l.length
  | [] => rfl
  | e :: l => by
    have ih := filter_status_length_partition l
    cases h : e.status <;> simp [List.filter_cons, h] <;> omega

lemma foldl_add_amount : ∀ (l : List Expense) (a : ℚ),
    l.foldl (fun sum e => sum + e.amount) a = a + (l.map Expense.amount).sum
  | [], a => by simp
  | e :: l, a => by
    rw [List.foldl_cons, foldl_add_amount l (a + e.amount)]
    simp [add_assoc]

/-- C7: the three status counts of `getExpenseStats` partition the expense
table (`pendingCount + approvedCount + rejectedCount` equals the total number
of stored expenses), and `totalAmount` is the sum of `amount` over the
approved expenses only. -/
theorem stats_counts_partition (s : MemStorage) :
    (MemStorage.getExpenseStats s).pendingCount +
        (MemStorage.getExpenseStats s).approvedCount +
        (MemStorage.getExpenseStats s).rejectedCount = s.expenses.length ∧
    (MemStorage.getExpenseStats s).totalAmount =
      ((s.expenses.filter (fun e => e.status == Status.approved)).map Expense.amount).sum := by
  constructor
  · exact filter_status_length_partition s.expenses
  · show (s.expenses.filter (fun e => e.status == Status.approved)).foldl
        (fun sum e => sum + e.amount) 0 = _
    rw [foldl_add_amount]
    simp

/-! ### C6 — list-by-status is the filtered list-all -/

lemma orderedInsert_eq_cons {a : Expense} :
    ∀ {M : List Expense}, (∀ b ∈ M, subDateGe a b) →
      List.orderedInsert subDateGe a M = a :: M
  | [], _ => rfl
  | b :: M, h => by
    rw [List.orderedInsert, if_pos (h b (List.mem_cons_self b M))]

lemma filter_orderedInsert_of_neg {p : Expense → Bool} {a : Expense} (hpa : p a = false) :
    ∀ L : List Expense,
      (List.orderedInsert subDateGe a L).filter p = L.filter p
  | [] => by simp [List.orderedInsert, List.filter, hpa]
  | c :: L => by
    rw [List.orderedInsert]
    by_cases hac : subDateGe a c
    · rw [if_pos hac, List.filter_cons, List.filter_cons]
      simp [hpa]
    · rw [if_neg hac, List.filter_cons, List.filter_cons,
        filter_orderedInsert_of_neg hpa L]

lemma filter_orderedInsert_of_pos {p : Expense → Bool} {a : Expense} (hpa : p a = true) :
    ∀ L : List Expense, L.Pairwise subDateGe →
      (List.orderedInsert subDateGe a L).filter p =
        List.orderedInsert subDateGe a (L.filter p)
  | [], _ => by simp [List.orderedInsert, hpa]
  | c :: L, hL => by
    have hsorted : ∀ b ∈ L, subDateGe c b := (List.pairwise_cons.1 hL).1
    have hLp : L.Pairwise subDateGe := (List.pairwise_cons.1 hL).2
    by_cases hac : subDateGe a c
    · cases hpc : p c with
      | true =>
        simp [List.orderedInsert, hac, List.filter_cons, hpa, hpc]
      | false =>
        have hall : ∀ b ∈ L.filter p, subDateGe a b := fun b hb =>
          le_trans (hsorted b (List.mem_of_mem_filter hb)) hac
        simp [List.orderedInsert, hac, List.filter_cons, hpa, hpc,
          orderedInsert_eq_cons hall]
    · cases hpc : p c with
      | true =>
        simp [List.orderedInsert, hac, List.filter_cons, hpa, hpc,
          filter_orderedInsert_of_pos hpa L hLp]
      | false =>
        simp [List.orderedInsert, hac, List.filter_cons, hpa, hpc,
          filter_orderedInsert_of_pos hpa L hLp]

lemma filter_insertionSort (p : Expense → Bool) :
    ∀ l : List Expense,
      (l.insertionSort subDateGe).filter p = (l.filter p).insertionSort subDateGe
  | [] => rfl
  | a :: l => by
    rw [List.insertionSort, List.filter_cons]
    cases hpa : p a
    · rw [filter_orderedInsert_of_neg hpa, filter_insertionSort p l]
      simp
    · rw [filter_orderedInsert_of_pos hpa _ (List.sorted_insertionSort subDateGe l),
        filter_insertionSort p l]
      simp [List.insertionSort]

/-- C6: for every storage state, list-by-status returns exactly the
subsequence of list-all whose elements carry that status, in the same
relative order (the stable descending sort commutes with the status filter);
and on an empty expense table both list operations return the empty
sequence. -/
theorem listByStatus_filters_listAll (s : MemStorage) (status : Status) :
    MemStorage.getExpensesByStatus s status =
      (MemStorage.getAllExpenses s).filter (fun e => e.status == status) ∧
    (s.expenses = [] →
      MemStorage.getAllExpenses s = [] ∧ MemStorage.getExpensesByStatus s status = []) := by
  constructor
  · rw [MemStorage.getExpensesByStatus, MemStorage.getAllExpenses,
      filter_insertionSort]
  · intro h
    rw [MemStorage.getAllExpenses, MemStorage.getExpensesByStatus, h]
    exact ⟨rfl, rfl⟩

/-- Witness for C6 at concrete states: the filtering identity evaluated on the
demo store, and the empty-table clause on the empty store. -/
theorem listByStatus_filters_listAll_witness :
    MemStorage.getExpensesByStatus demoStore .pending =
      (MemStorage.getAllExpenses demoStore).filter (fun e => e.status == .pending) ∧
    MemStorage.getAllExpenses emptyStore = [] ∧
    MemStorage.getExpensesByStatus emptyStore .pending = [] :=
  ⟨(listByStatus_filters_listAll demoStore .pending).1,
   (listByStatus_filters_listAll emptyStore .pending).2 rfl⟩

/-! ### C9 — the mileage amount computation -/

/-- C9 counterexample: with the valid positive rate 0.68, doubling the
distance from 0.125 to 0.25 does **not** double the amount:
`calculateAmount 0.125 0.68 = 0.09` (1.25 · 0.68 = 0.085 rounds half-up to
0.09) while `calculateAmount 0.25 0.68 = 0.17 ≠ 0.18`.  Exact linearity is
incompatible with rounding to 2 fractional digits, so the claim as stated is
false of the code. -/
theorem calculateAmount_linearity_cx :
    0 < (68 : ℚ) / 100 ∧ 0 < (1 : ℚ) / 8 ∧
    calculateAmount (2 * (1 / 8)) (68 / 100) ≠ 2 * calculateAmount (1 / 8) (68 / 100) := by
  refine ⟨by norm_num, by norm_num, ?_⟩
  norm_num [calculateAmount, roundHalfUpTo2]

/-- C9 (amended): `calculateAmount 0 r = 0.00` for every positive rate and is
an accepted value (not an error); `calculateAmount d r` is d · r rounded
half-up to 2 fractional digits; and doubling the distance doubles the amount
whenever d · r is an exact multiple of 0.01 (i.e. whenever no rounding takes
place; with rounding, exact linearity fails — see the counterexample). -/
theorem calculateAmount_amended :
    (∀ r : ℚ, 0 < r → calculateAmount 0 r = 0) ∧
    (∀ d r : ℚ, calculateAmount d r = ((⌊d * r * 100 + 1 / 2⌋ : ℤ) : ℚ) / 100) ∧
    (∀ d r : ℚ, (∃ n : ℤ, d * r * 100 = (n : ℚ)) →
      calculateAmount (2 * d) r = 2 * calculateAmount d r) := by
  refine ⟨fun r _ => by norm_num [calculateAmount, roundHalfUpTo2], fun d r => rfl, ?_⟩
  rintro d r ⟨n, hn⟩
  have h2 : (2 * d) * r * 100 = ((2 * n : ℤ) : ℚ) := by
    push_cast
    rw [← hn]
    ring
  have hfl : ∀ (m : ℤ), ⌊(m : ℚ) + 1 / 2⌋ = m := by
    intro m
    rw [Int.floor_int_add]
    norm_num
  rw [calculateAmount, calculateAmount, roundHalfUpTo2, roundHalfUpTo2]
  have ha : 2 * d * r * 100 = ((2 * n : ℤ) : ℚ) := by
    push_cast
    rw [← hn]
    ring
  rw [ha, hn, hfl, hfl]
  push_cast
  ring

/-- Witness for C9's amended theorem: the zero-distance clause at rate 0.68,
and the no-rounding linearity clause at distance 1, rate 0.68
(1 · 0.68 · 100 = 68 is integral). -/
theorem calculateAmount_amended_witness :
    calculateAmount 0 (68 / 100) = 0 ∧
    calculateAmount (2 * 1) (68 / 100) = 2 * calculateAmount 1 (68 / 100) :=
  ⟨calculateAmount_amended.1 (68 / 100) (by norm_num),
   calculateAmount_amended.2.2 1 (68 / 100) ⟨68, by norm_num⟩⟩

/-! ### C4 — decide requires the approver or admin role -/

/-- C4: a decide call by a user whose role is `employee` is rejected with the
403 insufficient-permissions response, and the whole world — in particular the
stored expense record — is left unchanged. -/
theorem decide_by_employee_forbidden (env : SinkEnv) (now : Nat) (w : World)
    (callerId id : Nat) (body : DecideBody) (u : User)
    (hu : w.store.getUser callerId = some u) (hrole : u.role = .employee) :
    Routes.patchExpenseStatus env now w callerId id body = (.forbidden, w) := by
  rw [Routes.patchExpenseStatus, hu]
  simp [hrole]

/-- Witness for C4: the employee of the demo store attempts to decide the
pending expense; the response is 403 and the world is untouched. -/
theorem decide_by_employee_forbidden_witness :
    Routes.patchExpenseStatus failingEnv 200 demoWorld 3 2
        { status := .approved, approvalNote := none } = (.forbidden, demoWorld) :=
  decide_by_employee_forbidden failingEnv 200 demoWorld 3 2
    { status := .approved, approvalNote := none } employeeUser (by decide) rfl

/-! ### Helper lemmas about the route pipeline -/

lemma sheetsUpdate_preserves_store (env : SinkEnv) (w : World) (e : Expense) :
    ((SheetsService.updateExpenseStatus env w e).1).store = w.store := by
  cases hsr : e.sheetsRowNumber with
  | none => simp [SheetsService.updateExpenseStatus, hsr]
  | some rn =>
    cases hok : env.ledgerUpdateOk <;>
      simp [SheetsService.updateExpenseStatus, hsr, hok]

lemma sheetsUpdate_calls (env : SinkEnv) (w : World) (e : Expense) :
    ((SheetsService.updateExpenseStatus env w e).1).calls =
      w.calls ++ [.ledgerUpdateFor e.id] := by
  cases hsr : e.sheetsRowNumber with
  | none => simp [SheetsService.updateExpenseStatus, hsr]
  | some rn =>
    cases hok : env.ledgerUpdateOk <;>
      simp [SheetsService.updateExpenseStatus, hsr, hok]

lemma sendApproval_calls (env : SinkEnv) (w : World) (e : Expense) :
    (NotificationService.sendApprovalNotification env w e).calls =
      w.calls ++ [.notifyEmployee e.id] := by
  cases h : env.notifierOk <;>
    simp [NotificationService.sendApprovalNotification, h]

lemma decidedOf_id (now : Nat) (upd : UpdateExpenseStatusData) (e : Expense) :
    (decidedOf now upd e).id = e.id := rfl

/-- Full characterization of a successful PATCH /api/expenses/:id/status call:
whatever the current status of the stored expense, the handler answers 200
with the overwritten record (`decidedOf`), and that record — possibly with its
notification flag raised by the notifier sink — is what the store then
holds under this id. -/
lemma patch_success (env : SinkEnv) (now : Nat) (w : World) (callerId id : Nat)
    (body : DecideBody) (u : User) (e0 : Expense)
    (hu : w.store.getUser callerId = some u)
    (hrole : u.role = .approver ∨ u.role = .admin)
    (he : w.store.getExpense id = some e0) :
    (Routes.patchExpenseStatus env now w callerId id body).1 =
      .ok (decidedOf now ⟨body.status, body.approvalNote, u.id, u.name⟩ e0) ∧
    (∃ b : Bool,
      (Routes.patchExpenseStatus env now w callerId id body).2.store.getExpense id =
        some { decidedOf now ⟨body.status, body.approvalNote, u.id, u.name⟩ e0 with
               notificationSent := b }) ∧
    SinkCall.notifyEmployee id ∈
      (Routes.patchExpenseStatus env now w callerId id body).2.calls := by
  have hcond : ¬(u.role ≠ Role.approver ∧ u.role ≠ Role.admin) := by
    rcases hrole with h | h <;> simp [h]
  have hid0 : e0.id = id := getExpense_id he
  have hid' : (decidedOf now ⟨body.status, body.approvalNote, u.id, u.name⟩ e0).id = id := by
    rw [decidedOf_id]; exact hid0
  set e' := decidedOf now ⟨body.status, body.approvalNote, u.id, u.name⟩ e0 with he'
  set w1 : World := { w with store := w.store.setExpense id e' } with hw1
  have hroute : Routes.patchExpenseStatus env now w callerId id body =
      (.ok e',
        NotificationService.sendApprovalNotification env
          ((SheetsService.updateExpenseStatus env w1 e').1) e') := by
    rw [Routes.patchExpenseStatus, hu]
    simp only [if_neg hcond, MemStorage.updateExpenseStatus, he]
  have hstore1 : (w.store.setExpense id e').getExpense id = some e' := by
    rw [getExpense_setExpense hid', he]
    rfl
  rw [hroute]
  refine ⟨rfl, ?_, ?_⟩
  · cases hok : env.notifierOk with
    | false =>
      refine ⟨false, ?_⟩
      simp only [NotificationService.sendApprovalNotification, hok, Bool.false_eq_true,
        if_false]
      rw [sheetsUpdate_preserves_store]
      exact hstore1
    | true =>
      refine ⟨true, ?_⟩
      simp only [NotificationService.sendApprovalNotification, hok, if_true]
      have hpres : ∀ x : Expense, ({ x with notificationSent := true } : Expense).id = x.id :=
        fun _ => rfl
      have hup := @updateExpense_getExpense
        ((SheetsService.updateExpenseStatus env w1 e').1).store e'.id
        (fun x => { x with notificationSent := true }) hpres
      rw [← hid']
      rw [hup, sheetsUpdate_preserves_store]
      have hstore1' : w1.store.getExpense e'.id = some e' := by
        show (w.store.setExpense id e').getExpense e'.id = some e'
        rw [hid']
        exact hstore1
      rw [hstore1']
      rfl
  · rw [sendApproval_calls, sheetsUpdate_calls]
    simp [hid']

/-! ### C1 — no pending-status check on decide -/

/-- C1 counterexample: `approvedExpense` is already approved, yet the decide
call by the admin succeeds (responds 200 with the overwritten record — no
InvalidTransitionError) and the stored record is changed. -/
theorem decide_nonpending_cx :
    approvedExpense.status = .approved ∧
    (Routes.patchExpenseStatus failingEnv 200 demoWorld 1 1
        { status := .rejected, approvalNote := none }).1 =
      .ok { approvedExpense with
            status := .rejected
            approvedBy := some 1
            approvedByName := some "Admin User"
            approvalDate := some 200
            notificationSent := false } ∧
    (Routes.patchExpenseStatus failingEnv 200 demoWorld 1 1
        { status := .rejected, approvalNote := none }).2.store.getExpense 1 ≠
      some approvedExpense := by
  refine ⟨rfl, by decide, by decide⟩

/-- C1 (amended): the decide operation performs **no** check of the current
status.  For every stored expense — pending, approved or rejected alike — a
decide call by an approver or admin succeeds and overwrites the decision
fields (status, approvedBy, approvedByName, approvalDate, approvalNote,
notificationSent reset); re-deciding an already-decided expense re-applies,
last write wins. -/
theorem decide_overwrites_without_status_check (env : SinkEnv) (now : Nat)
    (w : World) (callerId id : Nat) (body : DecideBody) (u : User) (e0 : Expense)
    (hu : w.store.getUser callerId = some u)
    (hrole : u.role = .approver ∨ u.role = .admin)
    (he : w.store.getExpense id = some e0) :
    (Routes.patchExpenseStatus env now w callerId id body).1 =
      .ok (decidedOf now ⟨body.status, body.approvalNote, u.id, u.name⟩ e0) ∧
    ∃ b : Bool,
      (Routes.patchExpenseStatus env now w callerId id body).2.store.getExpense id =
        some { decidedOf now ⟨body.status, body.approvalNote, u.id, u.name⟩ e0 with
               notificationSent := b } :=
  ⟨(patch_success env now w callerId id body u e0 hu hrole he).1,
   (patch_success env now w callerId id body u e0 hu hrole he).2.1⟩

/-- Witness for C1's amended theorem: the admin re-decides the already
approved demo expense. -/
theorem decide_overwrites_without_status_check_witness :
    (Routes.patchExpenseStatus failingEnv 200 demoWorld 1 1
        { status := .rejected, approvalNote := none }).1 =
      .ok (decidedOf 200 ⟨.rejected, none, 1, "Admin User"⟩ approvedExpense) :=
  (decide_overwrites_without_status_check failingEnv 200 demoWorld 1 1
    { status := .rejected, approvalNote := none } adminUser approvedExpense
    (by decide) (Or.inr rfl) (by decide)).1

/-! ### Helper lemmas about the submit pipeline -/

lemma find?_append_new (e : Expense) : ∀ l : List Expense, (∀ x ∈ l, x.id ≠ e.id) →
    (l ++ [e]).find? (fun x => x.id == e.id) = some e
  | [], _ => by simp
  | x :: l, h => by
    rw [List.cons_append,
      List.find?_cons_of_neg _ (by simp [h x (List.mem_cons_self x l)])]
    exact find?_append_new e l (fun y hy => h y (List.mem_cons_of_mem x hy))

lemma createExpense_getExpense (now : Nat) (s : MemStorage) (ins : InsertExpense)
    (hfresh : ∀ x ∈ s.expenses, x.id < s.currentExpenseId) :
    ((MemStorage.createExpense now s ins).2).getExpense
        (MemStorage.createExpense now s ins).1.id =
      some (MemStorage.createExpense now s ins).1 := by
  have hne : ∀ x ∈ s.expenses, x.id ≠ (MemStorage.createExpense now s ins).1.id := by
    intro x hx
    have := hfresh x hx
    have hid : (MemStorage.createExpense now s ins).1.id = s.currentExpenseId := rfl
    omega
  show (s.expenses ++ [(MemStorage.createExpense now s ins).1]).find?
      (fun x => x.id == (MemStorage.createExpense now s ins).1.id) = _
  exact find?_append_new _ _ hne

lemma addExpense_calls (env : SinkEnv) (w : World) (e : Expense) :
    (SheetsService.addExpense env w e).1.calls = w.calls ++ [.ledgerAppendFor e.id] := by
  rcases hres : env.ledgerAppendResult w.ledger.length with _ | r
  · simp [SheetsService.addExpense, hres]
  · by_cases hr : 0 < r <;> simp [SheetsService.addExpense, hres, hr]

lemma addExpense_store_of_throw (env : SinkEnv) (w : World) (e : Expense)
    (h : env.ledgerAppendResult w.ledger.length = none) :
    (SheetsService.addExpense env w e).1.store = w.store := by
  simp [SheetsService.addExpense, h]

lemma sendSubmission_store (env : SinkEnv) (w : World) (e : Expense) :
    (NotificationService.sendExpenseSubmissionNotification env w e).store = w.store := by
  cases h : env.notifierOk <;>
    simp [NotificationService.sendExpenseSubmissionNotification, h]

lemma sendSubmission_calls (env : SinkEnv) (w : World) (e : Expense) :
    (NotificationService.sendExpenseSubmissionNotification env w e).calls =
      w.calls ++ [.notifyApprovers e.id] := by
  cases h : env.notifierOk <;>
    simp [NotificationService.sendExpenseSubmissionNotification, h]

lemma post_route_eq (env : SinkEnv) (now : Nat) (w : World) (callerId : Nat)
    (body : SubmitBody) (u : User) (hu : w.store.getUser callerId = some u) :
    Routes.postExpense env now w callerId body =
      (.created (MemStorage.createExpense now w.store (Routes.submitInsert u body)).1,
        NotificationService.sendExpenseSubmissionNotification env
          ((SheetsService.addExpense env
            (w.withStore (MemStorage.createExpense now w.store (Routes.submitInsert u body)).2)
            (MemStorage.createExpense now w.store (Routes.submitInsert u body)).1).1)
          (MemStorage.createExpense now w.store (Routes.submitInsert u body)).1) := by
  rw [Routes.postExpense, hu]

/-! ### C2 — a ledger sink failure is isolated -/

/-- C2: when the external ledger sink throws (both the row append used by
submit and the row update used by decide), the notifier sink is nevertheless
invoked, the operation still answers success, and the record is already
persisted in the store — the sink failure neither propagates nor blocks the
sibling sink.  Stated for a decide call and a submit call over arbitrary
worlds. -/
theorem ledger_failure_isolated (env : SinkEnv)
    (hupd : env.ledgerUpdateOk = false)
    (happ : ∀ k, env.ledgerAppendResult k = none)
    (now : Nat) (w : World) (callerId id : Nat) (body : DecideBody)
    (u : User) (e0 : Expense)
    (hu : w.store.getUser callerId = some u)
    (hrole : u.role = .approver ∨ u.role = .admin)
    (he : w.store.getExpense id = some e0)
    (now2 : Nat) (w2 : World) (callerId2 : Nat) (body2 : SubmitBody) (u2 : User)
    (hu2 : w2.store.getUser callerId2 = some u2)
    (hfresh : ∀ x ∈ w2.store.expenses, x.id < w2.store.currentExpenseId) :
    ((∃ e, (Routes.patchExpenseStatus env now w callerId id body).1 = .ok e) ∧
      SinkCall.notifyEmployee id ∈
        (Routes.patchExpenseStatus env now w callerId id body).2.calls ∧
      (∃ ef, (Routes.patchExpenseStatus env now w callerId id body).2.store.getExpense id =
          some ef ∧ ef.status = body.status.toStatus)) ∧
    (∃ e, (Routes.postExpense env now2 w2 callerId2 body2).1 = .created e ∧
      SinkCall.notifyApprovers e.id ∈
        (Routes.postExpense env now2 w2 callerId2 body2).2.calls ∧
      (Routes.postExpense env now2 w2 callerId2 body2).2.store.getExpense e.id = some e) := by
  constructor
  · obtain ⟨hresp, ⟨b, hb⟩, hcalls⟩ := patch_success env now w callerId id body u e0 hu hrole he
    exact ⟨⟨_, hresp⟩, hcalls, ⟨_, hb, rfl⟩⟩
  · rw [post_route_eq env now2 w2 callerId2 body2 u2 hu2]
    refine ⟨(MemStorage.createExpense now2 w2.store (Routes.submitInsert u2 body2)).1,
      rfl, ?_, ?_⟩
    · rw [sendSubmission_calls, addExpense_calls]
      simp
    · rw [sendSubmission_store, addExpense_store_of_throw _ _ _ (happ _)]
      exact createExpense_getExpense now2 w2.store (Routes.submitInsert u2 body2) hfresh

/-- Witness for C2 at a concrete world: the all-failing environment, the demo
approver deciding the pending expense, and the demo employee submitting. -/
theorem ledger_failure_isolated_witness :
    ((∃ e, (Routes.patchExpenseStatus failingEnv 300 demoWorld 2 2
        { status := .approved, approvalNote := none }).1 = .ok e) ∧
      SinkCall.notifyEmployee 2 ∈
        (Routes.patchExpenseStatus failingEnv 300 demoWorld 2 2
          { status := .approved, approvalNote := none }).2.calls ∧
      (∃ ef, (Routes.patchExpenseStatus failingEnv 300 demoWorld 2 2
          { status := .approved, approvalNote := none }).2.store.getExpense 2 =
          some ef ∧ ef.status = Verdict.approved.toStatus)) ∧
    (∃ e, (Routes.postExpense failingEnv 301 demoWorld 3 demoSubmit).1 = .created e ∧
      SinkCall.notifyApprovers e.id ∈
        (Routes.postExpense failingEnv 301 demoWorld 3 demoSubmit).2.calls ∧
      (Routes.postExpense failingEnv 301 demoWorld 3 demoSubmit).2.store.getExpense e.id =
        some e) :=
  ledger_failure_isolated failingEnv rfl (fun _ => rfl) 300 demoWorld 2 2
    { status := .approved, approvalNote := none } approverUser pendingExpense
    (by decide) (Or.inl rfl) (by decide) 301 demoWorld 3 demoSubmit employeeUser
    (by decide) (by decide)

/-! ### C8 — where the mileage rate comes from -/

/-- C8 counterexample: in a store whose `mileage_rate` setting is unset, the
documented rate at call time is the fallback 0.68 (as GET /api/mileage-rate
reports), yet a mileage submission with caller-supplied rate 2 and distance 10
is stored with amount 20 — not 10 · 0.68 = 6.80.  The rate used to derive the
amount is the one in the request body, not the SystemSettings value. -/
theorem mileage_rate_caller_supplied_cx :
    demoWorld.store.getSetting "mileage_rate" = none ∧
    Routes.getMileageRate demoWorld.store = some (68 / 100) ∧
    (∃ e, (Routes.postExpense failingEnv 400 demoWorld 3 mileageSubmit).1 = .created e ∧
      e.amount = 20 ∧ e.amount ≠ calculateAmount 10 (68 / 100)) := by
  refine ⟨rfl, rfl, ?_⟩
  refine ⟨_, rfl, ?_, ?_⟩
  · show calculateAmount 10 2 = 20
    norm_num [calculateAmount, roundHalfUpTo2]
  · show calculateAmount 10 2 ≠ calculateAmount 10 (68 / 100)
    norm_num [calculateAmount, roundHalfUpTo2]

/-- C8 (amended): GET /api/mileage-rate reads the rate from SystemSettings at
call time (key `"mileage_rate"`, parsed from the stored string) with the
documented fallback 0.68 when the setting is unset; but the amount of a
mileage submission is derived from the **caller-supplied** `mileageRate`
request field (the client is expected to have fetched the rate), the submit
path itself never consults SystemSettings. -/
theorem mileage_rate_amended :
    (∀ (s : MemStorage) (st : SystemSetting), s.getSetting "mileage_rate" = some st →
      Routes.getMileageRate s = parseDecimal st.value) ∧
    (∀ s : MemStorage, s.getSetting "mileage_rate" = none →
      Routes.getMileageRate s = some (68 / 100)) ∧
    (∀ (env : SinkEnv) (now : Nat) (w : World) (callerId : Nat) (body : SubmitBody)
      (u : User) (d r : ℚ), w.store.getUser callerId = some u →
      body.mileageDistance = some d → body.mileageRate = some r →
      ∃ e, (Routes.postExpense env now w callerId body).1 = .created e ∧
        e.amount = calculateAmount d r) := by
  refine ⟨?_, ?_, ?_⟩
  · intro s st h
    rw [Routes.getMileageRate, h]
  · intro s h
    rw [Routes.getMileageRate, h]
  · intro env now w callerId body u d r hu hd hr
    rw [post_route_eq env now w callerId body u hu]
    refine ⟨_, rfl, ?_⟩
    show (Routes.submitInsert u body).amount = calculateAmount d r
    rw [Routes.submitInsert]
    simp [hd, hr]

/-- Witness for C8's amended theorem: a configured setting, the unset
fallback, and a concrete mileage submission. -/
theorem mileage_rate_amended_witness :
    Routes.getMileageRate settingStore = parseDecimal "0.70" ∧
    Routes.getMileageRate demoStore = some (68 / 100) ∧
    (∃ e, (Routes.postExpense failingEnv 400 demoWorld 3 mileageSubmit).1 = .created e ∧
      e.amount = calculateAmount 10 2) :=
  ⟨mileage_rate_amended.1 settingStore mileageSetting rfl,
   mileage_rate_amended.2.1 demoStore rfl,
   mileage_rate_amended.2.2 failingEnv 400 demoWorld 3 mileageSubmit employeeUser 10 2
     (by decide) rfl rfl⟩

/-! ### C10 — the notificationSent flag -/

/-- C10: `notificationSent` is raised only after the approval-notification
send to the submitter completed without error: if the notifier throws, the
storage (hence every flag) is unchanged and nothing was sent; if the send
succeeds, the e-mail is recorded first and exactly the decided expense's
entry is flagged (all other entries are untouched), and the submission-path
notification to approvers never writes the storage at all. -/
theorem notificationSent_flag_discipline (env : SinkEnv) (w : World) (e : Expense) :
    (env.notifierOk = false →
      (NotificationService.sendApprovalNotification env w e).store = w.store ∧
      (NotificationService.sendApprovalNotification env w e).sent = w.sent) ∧
    (env.notifierOk = true →
      (NotificationService.sendApprovalNotification env w e).sent =
        w.sent ++ [{ recipient := e.employeeEmail, kind := .decisionNotice e.status }] ∧
      (∀ y, w.store.getExpense e.id = some y →
        (NotificationService.sendApprovalNotification env w e).store.getExpense e.id =
          some { y with notificationSent := true }) ∧
      (∀ x ∈ (NotificationService.sendApprovalNotification env w e).store.expenses,
        x.id ≠ e.id → x ∈ w.store.expenses)) ∧
    (NotificationService.sendExpenseSubmissionNotification env w e).store = w.store := by
  have hpres : ∀ x : Expense, ({ x with notificationSent := true } : Expense).id = x.id :=
    fun _ => rfl
  refine ⟨?_, ?_, sendSubmission_store env w e⟩
  · intro h
    constructor <;> simp [NotificationService.sendApprovalNotification, h]
  · intro h
    have hst : (NotificationService.sendApprovalNotification env w e).store =
        (w.store.updateExpense e.id (fun x => { x with notificationSent := true })).2 := by
      simp [NotificationService.sendApprovalNotification, h]
    refine ⟨by simp [NotificationService.sendApprovalNotification, h], ?_, ?_⟩
    · intro y hy
      rw [hst, updateExpense_getExpense hpres, hy]
      rfl
    · intro x hx hne
      rw [hst] at hx
      exact updateExpense_mem_of_ne hpres hx hne

/-- Witness for C10: a failing notifier leaves the demo store untouched; a
healthy notifier flags exactly the pending expense it notified about. -/
theorem notificationSent_flag_discipline_witness :
    (NotificationService.sendApprovalNotification failingEnv demoWorld pendingExpense).store =
      demoWorld.store ∧
    (NotificationService.sendApprovalNotification healthyEnv demoWorld
        pendingExpense).store.getExpense pendingExpense.id =
      some { pendingExpense with notificationSent := true } :=
  ⟨((notificationSent_flag_discipline failingEnv demoWorld pendingExpense).1 rfl).1,
   ((notificationSent_flag_discipline healthyEnv demoWorld pendingExpense).2.1 rfl).2.1
     pendingExpense (by decide)⟩

/-! ### C5 — reconciliation is idempotent -/

lemma updateExpense_mem_none {s : MemStorage} {eid r : Nat} {x : Expense}
    (hx : x ∈ ((s.updateExpense eid
      (fun y => { y with sheetsRowNumber := some r })).2).expenses)
    (hxnone : x.sheetsRowNumber = none) :
    x ∈ s.expenses ∧ x.id ≠ eid := by
  rcases hg : s.getExpense eid with _ | e0
  · simp only [MemStorage.updateExpense, hg] at hx
    exact ⟨hx, getExpense_eq_none hg x hx⟩
  · simp only [MemStorage.updateExpense, hg, MemStorage.setExpense] at hx
    rcases List.mem_map.1 hx with ⟨y, hy, hxy⟩
    by_cases hyid : y.id = eid
    · exfalso
      rw [← hxy] at hxnone
      simp [hyid] at hxnone
    · constructor
      · rw [← hxy]
        simpa [hyid] using hy
      · rw [← hxy]
        simpa [hyid] using hyid

lemma syncLoop_none_entry (env : SinkEnv)
    (hpos : ∀ k r, env.ledgerAppendResult k = some r → 0 < r) :
    ∀ (es : List Expense) (w : World) (x : Expense),
      (SheetsService.syncLoop env w es).2 = false →
      x ∈ (SheetsService.syncLoop env w es).1.store.expenses →
      x.sheetsRowNumber = none →
      x ∈ w.store.expenses ∧ ∀ e ∈ es, e.id = x.id → e.sheetsRowNumber ≠ none
  | [], w, x, _, hx, _ => ⟨hx, by simp⟩
  | e :: es, w, x, hrun, hx, hxnone => by
    rcases hsr : e.sheetsRowNumber with _ | rn
    · rcases hres : env.ledgerAppendResult w.ledger.length with _ | r
      · exfalso
        simp [SheetsService.syncLoop, hsr, SheetsService.addExpense, hres] at hrun
      · have hr : 0 < r := hpos _ _ hres
        simp only [SheetsService.syncLoop, hsr, SheetsService.addExpense, hres,
          if_pos hr] at hrun hx
        obtain ⟨hx2, hrest⟩ := syncLoop_none_entry env hpos es _ x hrun hx hxnone
        obtain ⟨hx0, hne⟩ := updateExpense_mem_none hx2 hxnone
        refine ⟨hx0, ?_⟩
        intro e' he' heq
        rcases List.mem_cons.1 he' with rfl | he'
        · exact absurd heq.symm (by simpa using hne)
        · exact hrest e' he' heq
    · simp only [SheetsService.syncLoop, hsr] at hrun hx
      obtain ⟨hx0, hrest⟩ := syncLoop_none_entry env hpos es w x hrun hx hxnone
      refine ⟨hx0, ?_⟩
      intro e' he' heq
      rcases List.mem_cons.1 he' with rfl | he'
      · simp [hsr]
      · exact hrest e' he' heq

lemma syncLoop_skip_all (env : SinkEnv) :
    ∀ (es : List Expense) (w : World), (∀ e ∈ es, e.sheetsRowNumber ≠ none) →
      SheetsService.syncLoop env w es = (w, false)
  | [], _, _ => rfl
  | e :: es, w, h => by
    rcases hsr : e.sheetsRowNumber with _ | rn
    · exact absurd hsr (h e (List.mem_cons_self e es))
    · simp only [SheetsService.syncLoop, hsr]
      exact syncLoop_skip_all env es w (fun e' he' => h e' (List.mem_cons_of_mem e he'))

lemma syncLoop_ledger_length (env : SinkEnv) :
    ∀ (es : List Expense) (w : World),
      (SheetsService.syncLoop env w es).2 = false →
      (SheetsService.syncLoop env w es).1.ledger.length =
        w.ledger.length + (es.filter (fun e => e.sheetsRowNumber == none)).length
  | [], w, _ => by simp [SheetsService.syncLoop]
  | e :: es, w, hrun => by
    rcases hsr : e.sheetsRowNumber with _ | rn
    · rcases hres : env.ledgerAppendResult w.ledger.length with _ | r
      · exfalso
        simp [SheetsService.syncLoop, hsr, SheetsService.addExpense, hres] at hrun
      · by_cases hr : 0 < r
        · simp only [SheetsService.syncLoop, hsr, SheetsService.addExpense, hres,
            if_pos hr] at hrun ⊢
          rw [syncLoop_ledger_length env es _ hrun]
          simp [List.filter_cons, hsr]
          omega
        · simp only [SheetsService.syncLoop, hsr, SheetsService.addExpense, hres,
            if_neg hr] at hrun ⊢
          rw [syncLoop_ledger_length env es _ hrun]
          simp [List.filter_cons, hsr]
          omega
    · simp only [SheetsService.syncLoop, hsr] at hrun ⊢
      rw [syncLoop_ledger_length env es w hrun]
      simp [List.filter_cons, hsr]

/-- C5: when a `syncExpensesToSheet` run completes without error (every append
succeeded and reported a genuine positive row number), the run appends exactly
one ledger row per previously-unsynced expense — expenses already carrying a
row reference are skipped — and a second run straight after is a complete
no-op: it changes nothing and appends nothing, so over the two runs each
previously-unsynced expense is appended at most once. -/
theorem syncUnsynced_idempotent (env env' : SinkEnv) (w : World)
    (hpos : ∀ k r, env.ledgerAppendResult k = some r → 0 < r)
    (hrun : (SheetsService.syncExpensesToSheet env w).2 = false) :
    SheetsService.syncExpensesToSheet env'
        (SheetsService.syncExpensesToSheet env w).1 =
      ((SheetsService.syncExpensesToSheet env w).1, false) ∧
    (SheetsService.syncExpensesToSheet env w).1.ledger.length =
      w.ledger.length +
        (w.store.getAllExpenses.filter (fun e => e.sheetsRowNumber == none)).length := by
  constructor
  · rw [SheetsService.syncExpensesToSheet]
    apply syncLoop_skip_all
    intro e he hnone
    have hmem : e ∈ (SheetsService.syncExpensesToSheet env w).1.store.expenses :=
      (List.mem_insertionSort subDateGe).1 he
    obtain ⟨hw0, hall⟩ :=
      syncLoop_none_entry env hpos w.store.getAllExpenses w e hrun hmem hnone
    exact hall e ((List.mem_insertionSort subDateGe).2 hw0) rfl hnone
  · exact syncLoop_ledger_length env _ _ hrun

/-- Witness for C5: the healthy environment synchronizing the demo world; the
first run appends one row per stored (unsynced) expense and the second run is
a no-op. -/
theorem syncUnsynced_idempotent_witness :
    SheetsService.syncExpensesToSheet healthyEnv
        (SheetsService.syncExpensesToSheet healthyEnv demoWorld).1 =
      ((SheetsService.syncExpensesToSheet healthyEnv demoWorld).1, false) ∧
    (SheetsService.syncExpensesToSheet healthyEnv demoWorld).1.ledger.length =
      demoWorld.ledger.length +
        (demoWorld.store.getAllExpenses.filter
          (fun e => e.sheetsRowNumber == none)).length :=
  syncUnsynced_idempotent healthyEnv healthyEnv demoWorld
    (fun k r h => by
      simp only [healthyEnv, Option.some.injEq] at h
      omega)
    (by decide)

end ExpenseApp
